import Mathlib

/-!
Verification of `pkg/storaged/luksmeta-monitor-hack.py`.

The Python script is embedded shallowly:

* Python `str` values are modelled as `List Char`, `bytes` as `List Nat`
  (each element a byte value).
* JSON values (the result of `json.loads`) are modelled by the inductive
  type `Json`; Python `None` coincides with JSON `null`.
* A raised Python exception is modelled by `Except.error` carrying a
  `PyErr`; exceptions propagate through `do`-notation exactly as they
  propagate dynamically in Python.
* External processes (`cryptsetup`, `luksmeta`, `udevadm`) are modelled by
  an explicit environment `Env` that maps each invocation to its outcome:
  `none` models a spawn failure (`subprocess.run` raising `OSError`),
  `some (rc, out)` models a completed process with exit code `rc` and
  captured standard output `out`.
* The recursion in `get_clevis_config_from_protected_header` is expressed
  with an explicit fuel parameter; fuel exhaustion is modelled as Python's
  `RecursionError`.  Each recursive call strictly shrinks the header
  string, so any fuel larger than the string length is enough.

Library routines used by the script (`base64.urlsafe_b64decode`,
`bytes.decode("utf-8")`, `json.loads`, `json.dumps`, `int()`,
`bytes.splitlines`) are modelled after their CPython semantics; the JSON
number grammar is modelled for integers only (no floats appear anywhere in
the data handled by the script).
-/

namespace LuksHack

/-- Python exception classes that the modelled code can raise. -/
inductive PyErr : Type where
  | binError : PyErr
  | unicodeError : PyErr
  | jsonError : PyErr
  | keyError : PyErr
  | typeError : PyErr
  | attrError : PyErr
  | valueError : PyErr
  | osError : PyErr
  | recursionError : PyErr
deriving DecidableEq

/-- JSON values as produced by `json.loads`; Python `None` is `Json.null`. -/
inductive Json : Type where
  | null : Json
  | bool (b : Bool) : Json
  | num (n : Int) : Json
  | str (s : String) : Json
  | arr (items : List Json) : Json
  | obj (fields : List (String × Json)) : Json

/-- The character `{`. -/
def lbrace : Char := Char.ofNat 123

/-- The character `}`. -/
def rbrace : Char := Char.ofNat 125

/-- First value bound to a key in an association list, as in a Python dict. -/
def fieldsLookup (fields : List (String × Json)) (k : String) : Option Json :=
  match fields with
  | [] => none
  | (k', v) :: rest => if k' = k then some v else fieldsLookup rest k

/-- Python dict assignment `d[k] = v`: replace in place if the key exists,
append otherwise (dicts preserve insertion order). -/
def fieldsSet (fields : List (String × Json)) (k : String) (v : Json) :
    List (String × Json) :=
  match fields with
  | [] => [(k, v)]
  | (k', v') :: rest =>
    if k' = k then (k', v) :: rest else (k', v') :: fieldsSet rest k v

/-- Python truthiness of a JSON value (`if clevis:`). -/
def Json.truthy : Json → Bool
  | .null => false
  | .bool b => b
  | .num n => n ≠ 0
  | .str s => s.length ≠ 0
  | .arr items => items.length ≠ 0
  | .obj fields => fields.length ≠ 0

/-- Python `x == "lit"` where `x` is an arbitrary decoded JSON value:
true only when `x` is the very string. -/
def Json.eqStr : Json → String → Bool
  | .str s, t => s = t
  | _, _ => false

/-- Python `d.get(k, None)` on a decoded value; raises `AttributeError`
when the value is not a dict. -/
def pyGet (j : Json) (k : String) : Except PyErr Json :=
  match j with
  | .obj fields => .ok ((fieldsLookup fields k).getD .null)
  | _ => .error .attrError

/-- Python `d.get(k, dflt)` with an explicit default. -/
def pyGetD (j : Json) (k : String) (dflt : Json) : Except PyErr Json :=
  match j with
  | .obj fields => .ok ((fieldsLookup fields k).getD dflt)
  | _ => .error .attrError

/-- Python subscription `d[k]` with a string key: `KeyError` when absent,
`TypeError` when the value is not a dict. -/
def pyGetItem (j : Json) (k : String) : Except PyErr Json :=
  match j with
  | .obj fields =>
    match fieldsLookup fields k with
    | some v => .ok v
    | none => .error .keyError
  | _ => .error .typeError

/-- Normalisation of a JSON value used as a Python dict key, as
`json.dumps` serialises such keys (`None` ↦ `"null"`, `True` ↦ `"true"`,
ints by their decimal form); unhashable values raise `TypeError`. -/
def jsonDictKey : Json → Except PyErr String
  | .str s => .ok s
  | .null => .ok "null"
  | .bool true => .ok "true"
  | .bool false => .ok "false"
  | .num n => .ok (toString n)
  | .arr _ => .error .typeError
  | .obj _ => .error .typeError

/-- Lowercase hexadecimal digit. -/
def hexDigitChar (n : Nat) : Char :=
  if n < 10 then Char.ofNat (48 + n) else Char.ofNat (87 + n % 16)

/-- A `\uXXXX` escape for a code unit below `0x10000`. -/
def uEscape (n : Nat) : List Char :=
  ['\\', 'u', hexDigitChar (n / 4096 % 16), hexDigitChar (n / 256 % 16),
   hexDigitChar (n / 16 % 16), hexDigitChar (n % 16)]

/-- Serialisation of one character of a JSON string by `json.dumps`
(`ensure_ascii=True`): `"` and `\` and the named control escapes, other
characters outside `0x20`–`0x7e` as `\uXXXX` (a surrogate pair beyond the
basic plane). -/
def dumpsChar (c : Char) : List Char :=
  if c = '"' then ['\\', '"']
  else if c = '\\' then ['\\', '\\']
  else if c = '\n' then ['\\', 'n']
  else if c = '\r' then ['\\', 'r']
  else if c = '\t' then ['\\', 't']
  else if c = Char.ofNat 8 then ['\\', 'b']
  else if c = Char.ofNat 12 then ['\\', 'f']
  else if 32 ≤ c.toNat ∧ c.toNat ≤ 126 then [c]
  else if c.toNat < 65536 then uEscape c.toNat
  else uEscape (55296 + (c.toNat - 65536) / 1024) ++
       uEscape (56320 + (c.toNat - 65536) % 1024)

/-- Serialisation of the characters of a JSON string body. -/
def dumpsStr : List Char → List Char
  | [] => []
  | c :: rest => dumpsChar c ++ dumpsStr rest

mutual

/-- Model of `json.dumps` (default separators `", "` and `": "`,
`ensure_ascii=True`), producing the serialised character list. -/
def json_dumps_val : Json → List Char
  | .null => "null".data
  | .bool true => "true".data
  | .bool false => "false".data
  | .num n => (toString n).data
  | .str s => '"' :: dumpsStr s.data ++ ['"']
  | .arr items => '[' :: json_dumps_items items ++ [']']
  | .obj fields => lbrace :: json_dumps_fields fields ++ [rbrace]

/-- Array elements, `", "`-separated. -/
def json_dumps_items : List Json → List Char
  | [] => []
  | [x] => json_dumps_val x
  | x :: y :: xs => json_dumps_val x ++ ',' :: ' ' :: json_dumps_items (y :: xs)

/-- Object members, `", "`-separated, `": "` after each key. -/
def json_dumps_fields : List (String × Json) → List Char
  | [] => []
  | [(k, v)] => '"' :: dumpsStr k.data ++ '"' :: ':' :: ' ' :: json_dumps_val v
  | (k, v) :: f :: xs =>
    '"' :: dumpsStr k.data ++ '"' :: ':' :: ' ' :: json_dumps_val v ++
      ',' :: ' ' :: json_dumps_fields (f :: xs)

end

/-- Model of `json.dumps` returning a `String`. -/
def json_dumps (j : Json) : String := String.mk (json_dumps_val j)

/-! ### base64 (`base64.urlsafe_b64decode`) -/

/-- Value of one base64 alphabet character.  `urlsafe_b64decode` first
translates `-`/`_` to `+`/`/` and then decodes with the standard alphabet,
so both alphabets are accepted; `none` for every other character. -/
def b64Index (c : Char) : Option Nat :=
  if 'A' ≤ c ∧ c ≤ 'Z' then some (c.toNat - 65)
  else if 'a' ≤ c ∧ c ≤ 'z' then some (c.toNat - 97 + 26)
  else if '0' ≤ c ∧ c ≤ '9' then some (c.toNat - 48 + 52)
  else if c = '-' ∨ c = '+' then some 62
  else if c = '_' ∨ c = '/' then some 63
  else none

/-- Bytes encoded by a list of sextet values whose length is `0`, `2` or
`3` modulo `4` (a trailing group of two sextets yields one byte, of three
sextets two bytes). -/
def b64Groups : List Nat → List Nat
  | a :: b :: c :: d :: rest =>
    (a * 4 + b / 16) :: ((b % 16) * 16 + c / 4) :: ((c % 4) * 64 + d) ::
      b64Groups rest
  | [a, b, c] => [a * 4 + b / 16, (b % 16) * 16 + c / 4]
  | [a, b] => [a * 4 + b / 16]
  | _ => []

/-- Model of `binascii.a2b_base64` in its default non-strict mode, as
called by `base64.urlsafe_b64decode`: characters outside the alphabet and
`=` are discarded; the remaining length must be a multiple of `4`
(`binascii.Error: Incorrect padding` otherwise); data after the first `=`
is ignored; a single leftover sextet raises `binascii.Error: Invalid
padding`. -/
def a2b_base64 (cs : List Char) : Except PyErr (List Nat) :=
  let filtered := cs.filter (fun c => (b64Index c).isSome || c = '=')
  if filtered.length % 4 ≠ 0 then .error .binError
  else
    let dataChars := filtered.takeWhile (fun c => c ≠ '=')
    if dataChars.length % 4 = 1 then .error .binError
    else .ok (b64Groups (dataChars.map (fun c => (b64Index c).getD 0)))

/-- Model of `base64.urlsafe_b64decode`. -/
def urlsafe_b64decode (cs : List Char) : Except PyErr (List Nat) :=
  a2b_base64 cs

/-- Model of the script's `b64_decode`: re-pad with `=` to a multiple of
four characters, then decode as urlsafe base64. -/
def b64_decode (data : List Char) : Except PyErr (List Nat) :=
  urlsafe_b64decode (data ++ List.replicate ((4 - data.length % 4) % 4) '=')

/-- Standard base64url alphabet character of a sextet value (encoder used
only to build concrete test inputs). -/
def b64Char (n : Nat) : Char :=
  "ABCDEFGHIJKLMNOPQRSTUVWXYZabcdefghijklmnopqrstuvwxyz0123456789-_".data.getD n 'A'

/-- Unpadded base64url encoding of a byte list (test-input builder). -/
def b64url_encode : List Nat → List Char
  | a :: b :: c :: rest =>
    b64Char (a / 4) :: b64Char ((a % 4) * 16 + b / 16) ::
      b64Char ((b % 16) * 4 + c / 64) :: b64Char (c % 64) :: b64url_encode rest
  | [a, b] =>
    [b64Char (a / 4), b64Char ((a % 4) * 16 + b / 16), b64Char ((b % 16) * 4)]
  | [a] => [b64Char (a / 4), b64Char ((a % 4) * 16)]
  | [] => []

/-! ### UTF-8 (`bytes.decode("utf-8")`) -/

/-- Model of strict UTF-8 decoding of a byte list, as
`bytes.decode("utf-8")`: rejects stray continuation bytes, overlong
encodings, surrogates and code points beyond `0x10FFFF`. -/
def utf8_decode : List Nat → Except PyErr (List Char)
  | [] => .ok []
  | b :: rest =>
    if b < 128 then
      (utf8_decode rest).map (fun cs => Char.ofNat b :: cs)
    else if b < 194 then .error .unicodeError
    else if b < 224 then
      match rest with
      | c1 :: rest1 =>
        if 128 ≤ c1 ∧ c1 < 192 then
          (utf8_decode rest1).map
            (fun cs => Char.ofNat ((b - 192) * 64 + (c1 - 128)) :: cs)
        else .error .unicodeError
      | [] => .error .unicodeError
    else if b < 240 then
      match rest with
      | c1 :: c2 :: rest2 =>
        if 128 ≤ c1 ∧ c1 < 192 ∧ 128 ≤ c2 ∧ c2 < 192 then
          let cp := (b - 224) * 4096 + (c1 - 128) * 64 + (c2 - 128)
          if cp < 2048 ∨ (55296 ≤ cp ∧ cp < 57344) then .error .unicodeError
          else (utf8_decode rest2).map (fun cs => Char.ofNat cp :: cs)
        else .error .unicodeError
      | _ => .error .unicodeError
    else if b < 245 then
      match rest with
      | c1 :: c2 :: c3 :: rest3 =>
        if 128 ≤ c1 ∧ c1 < 192 ∧ 128 ≤ c2 ∧ c2 < 192 ∧ 128 ≤ c3 ∧ c3 < 192 then
          let cp := (b - 240) * 262144 + (c1 - 128) * 4096 +
                    (c2 - 128) * 64 + (c3 - 128)
          if cp < 65536 ∨ 1114111 < cp then .error .unicodeError
          else (utf8_decode rest3).map (fun cs => Char.ofNat cp :: cs)
        else .error .unicodeError
      | _ => .error .unicodeError
    else .error .unicodeError

/-- UTF-8 encoding of one character (test-input builder). -/
def utf8Char (c : Char) : List Nat :=
  let n := c.toNat
  if n < 128 then [n]
  else if n < 2048 then [192 + n / 64, 128 + n % 64]
  else if n < 65536 then [224 + n / 4096, 128 + n / 64 % 64, 128 + n % 64]
  else [240 + n / 262144, 128 + n / 4096 % 64, 128 + n / 64 % 64, 128 + n % 64]

/-- UTF-8 encoding of a character list (test-input builder). -/
def utf8Encode : List Char → List Nat
  | [] => []
  | c :: rest => utf8Char c ++ utf8Encode rest

/-! ### JSON parsing (`json.loads`)

The parser follows the strict JSON grammar accepted by `json.loads`;
numbers are modelled for the integer grammar only and escaped lone
surrogates are rejected (neither occurs in any data the script handles).
-/

/-- JSON insignificant whitespace. -/
def isJsonWs (c : Char) : Bool := c = ' ' || c = '\t' || c = '\n' || c = '\r'

/-- Drop leading JSON whitespace. -/
def skipWs (cs : List Char) : List Char := cs.dropWhile isJsonWs

/-- ASCII decimal digit. -/
def isDigitChar (c : Char) : Bool := '0' ≤ c && c ≤ '9'

/-- Value of a hexadecimal digit. -/
def hexVal (c : Char) : Option Nat :=
  if '0' ≤ c ∧ c ≤ '9' then some (c.toNat - 48)
  else if 'a' ≤ c ∧ c ≤ 'f' then some (c.toNat - 87)
  else if 'A' ≤ c ∧ c ≤ 'F' then some (c.toNat - 55)
  else none

/-- Numeric value of a digit list. -/
def natOfDigits (ds : List Char) : Nat :=
  ds.foldl (fun a c => a * 10 + (c.toNat - 48)) 0

/-- Parse the body of a JSON string (the input starts after the opening
quote); returns the content and the remaining input after the closing
quote. -/
def parseJString : List Char → Except PyErr (List Char × List Char)
  | [] => .error .jsonError
  | c :: rest =>
    if c = '"' then .ok ([], rest)
    else if c = '\\' then
      match rest with
      | [] => .error .jsonError
      | e :: rest2 =>
        if e = '"' ∨ e = '\\' ∨ e = '/' then
          (parseJString rest2).map (fun p => (e :: p.1, p.2))
        else if e = 'b' then
          (parseJString rest2).map (fun p => (Char.ofNat 8 :: p.1, p.2))
        else if e = 'f' then
          (parseJString rest2).map (fun p => (Char.ofNat 12 :: p.1, p.2))
        else if e = 'n' then
          (parseJString rest2).map (fun p => ('\n' :: p.1, p.2))
        else if e = 'r' then
          (parseJString rest2).map (fun p => ('\r' :: p.1, p.2))
        else if e = 't' then
          (parseJString rest2).map (fun p => ('\t' :: p.1, p.2))
        else if e = 'u' then
          match rest2 with
          | h1 :: h2 :: h3 :: h4 :: rest3 =>
            match hexVal h1, hexVal h2, hexVal h3, hexVal h4 with
            | some a, some b, some c2, some d =>
              let cp := a * 4096 + b * 256 + c2 * 16 + d
              if cp < 55296 ∨ 57344 ≤ cp then
                (parseJString rest3).map (fun p => (Char.ofNat cp :: p.1, p.2))
              else if cp < 56320 then
                match rest3 with
                | '\\' :: 'u' :: g1 :: g2 :: g3 :: g4 :: rest4 =>
                  match hexVal g1, hexVal g2, hexVal g3, hexVal g4 with
                  | some a2, some b2, some c3, some d2 =>
                    let cp2 := a2 * 4096 + b2 * 256 + c3 * 16 + d2
                    if 56320 ≤ cp2 ∧ cp2 < 57344 then
                      (parseJString rest4).map (fun p =>
                        (Char.ofNat (65536 + (cp - 55296) * 1024 + (cp2 - 56320))
                          :: p.1, p.2))
                    else .error .jsonError
                  | _, _, _, _ => .error .jsonError
                | _ => .error .jsonError
              else .error .jsonError
            | _, _, _, _ => .error .jsonError
          | _ => .error .jsonError
        else .error .jsonError
    else if c.toNat < 32 then .error .jsonError
    else (parseJString rest).map (fun p => (c :: p.1, p.2))

/-- Parse a JSON integer literal (optional minus, no leading zeros). -/
def parseNumber (cs : List Char) : Except PyErr (Int × List Char) :=
  let neg := match cs with
    | '-' :: _ => true
    | _ => false
  let cs1 := if neg then cs.tail else cs
  let digits := cs1.takeWhile isDigitChar
  let rest := cs1.dropWhile isDigitChar
  if digits.isEmpty then .error .jsonError
  else if 1 < digits.length ∧ digits.headD '0' = '0' then .error .jsonError
  else
    match rest with
    | '.' :: _ => .error .jsonError
    | 'e' :: _ => .error .jsonError
    | 'E' :: _ => .error .jsonError
    | _ =>
      .ok ((if neg then -(natOfDigits digits : Int) else (natOfDigits digits : Int)),
           rest)

mutual

/-- Parse one JSON value (leading whitespace allowed); fuel bounds the
recursion depth and loop length, two units per input character suffice. -/
def parseValue : Nat → List Char → Except PyErr (Json × List Char)
  | 0, _ => .error .jsonError
  | fuel + 1, cs =>
    match skipWs cs with
    | [] => .error .jsonError
    | c :: rest =>
      if c = '"' then (parseJString rest).map (fun p => (.str (String.mk p.1), p.2))
      else if c = lbrace then
        match skipWs rest with
        | c2 :: rest2 =>
          if c2 = rbrace then .ok (.obj [], rest2)
          else parseFields fuel (c2 :: rest2) []
        | [] => .error .jsonError
      else if c = '[' then
        match skipWs rest with
        | ']' :: rest2 => .ok (.arr [], rest2)
        | other => parseItems fuel other []
      else if c = 't' then
        match rest with
        | 'r' :: 'u' :: 'e' :: rest2 => .ok (.bool true, rest2)
        | _ => .error .jsonError
      else if c = 'f' then
        match rest with
        | 'a' :: 'l' :: 's' :: 'e' :: rest2 => .ok (.bool false, rest2)
        | _ => .error .jsonError
      else if c = 'n' then
        match rest with
        | 'u' :: 'l' :: 'l' :: rest2 => .ok (.null, rest2)
        | _ => .error .jsonError
      else if c = '-' ∨ isDigitChar c then
        (parseNumber (c :: rest)).map (fun p => (.num p.1, p.2))
      else .error .jsonError

/-- Parse the remaining elements of a non-empty array. -/
def parseItems : Nat → List Char → List Json → Except PyErr (Json × List Char)
  | 0, _, _ => .error .jsonError
  | fuel + 1, cs, acc =>
    match parseValue fuel cs with
    | .error e => .error e
    | .ok (v, r) =>
      match skipWs r with
      | ',' :: r2 => parseItems fuel r2 (acc ++ [v])
      | ']' :: r2 => .ok (.arr (acc ++ [v]), r2)
      | _ => .error .jsonError

/-- Parse the members of a non-empty object (duplicate keys overwrite the
earlier value in place, as `dict` construction does). -/
def parseFields : Nat → List Char → List (String × Json) →
    Except PyErr (Json × List Char)
  | 0, _, _ => .error .jsonError
  | fuel + 1, cs, acc =>
    match cs with
    | c :: rest =>
      if c = '"' then
        match parseJString rest with
        | .error e => .error e
        | .ok (k, r) =>
          match skipWs r with
          | ':' :: r2 =>
            match parseValue fuel r2 with
            | .error e => .error e
            | .ok (v, r3) =>
              let acc2 := fieldsSet acc (String.mk k) v
              match skipWs r3 with
              | ',' :: r4 => parseFields fuel (skipWs r4) acc2
              | c4 :: r4 =>
                if c4 = rbrace then .ok (.obj acc2, r4) else .error .jsonError
              | [] => .error .jsonError
          | _ => .error .jsonError
      else .error .jsonError
    | [] => .error .jsonError

end

/-- Model of `json.loads` on a character list. -/
def json_loads (cs : List Char) : Except PyErr Json :=
  match parseValue (2 * cs.length + 4) cs with
  | .error e => .error e
  | .ok (v, rest) => if (skipWs rest).isEmpty then .ok v else .error .jsonError

/-! ### The policy decoder

`get_clevis_config_from_protected_header` and
`get_clevis_config_from_jwe` recurse into the JWE strings listed under
`clevis.sss.jwe`.  The recursion is driven by an explicit fuel parameter,
decremented at each mutual call so the definitions stay structurally
recursive (and hence evaluable); fuel exhaustion models Python's
`RecursionError`.
-/

/-- Python `s.split(".")[0]`: the longest prefix before the first dot. -/
def headSegment : List Char → List Char
  | [] => []
  | c :: rest => if c = '.' then [] else c :: headSegment rest

/-- First value bound to a key in a generic association list. -/
def alistLookup {α : Type} (l : List (String × α)) (k : String) : Option α :=
  match l with
  | [] => none
  | (k', v) :: rest => if k' = k then some v else alistLookup rest k

/-- Assignment in a generic association list: replace in place if the key
exists, append otherwise. -/
def alistSet {α : Type} (l : List (String × α)) (k : String) (v : α) :
    List (String × α) :=
  match l with
  | [] => [(k, v)]
  | (k', v') :: rest =>
    if k' = k then (k', v) :: rest else (k', v') :: alistSet rest k v

mutual

/-- Model of `get_clevis_config_from_protected_header`.  `Except.ok none`
models the implicit `None` returned when the decoded header has no truthy
`clevis` member; exceptions raised by decoding propagate as errors. -/
def get_clevis_config_from_protected_header :
    Nat → List Char → Except PyErr (Option Json)
  | 0, _ => .error .recursionError
  | fuel + 1, protected_header => do
    let bytes ← b64_decode protected_header
    let header ← utf8_decode bytes
    let header_object ← json_loads header
    let clevis ← pyGet header_object "clevis"
    if clevis.truthy then do
      let pin ← pyGet clevis "pin"
      if pin.eqStr "tang" then
        pure (some clevis)
      else if pin.eqStr "sss" then do
        let sss ← pyGetItem clevis "sss"
        let jwes ← pyGetItem sss "jwe"
        let jweList ← match jwes with
          | .arr l => pure l
          | _ => Except.error .typeError
        let subpins ← sss_subpins fuel jweList []
        let t ← pyGetItem sss "t"
        pure (some (.obj [("pin", .str "sss"),
          ("sss", .obj [("t", t),
            ("pins", .obj (subpins.map (fun kv => (kv.1, Json.arr kv.2))))])]))
      else do
        let key ← jsonDictKey pin
        pure (some (.obj (fieldsSet [("pin", pin)] key (.obj []))))
    else
      pure none

/-- The loop over `clevis["sss"]["jwe"]`: recursively decode each JWE and
group the children's payloads by their own pin name, appending in input
order. -/
def sss_subpins : Nat → List Json → List (String × List Json) →
    Except PyErr (List (String × List Json))
  | 0, _, _ => .error .recursionError
  | _ + 1, [], acc => pure acc
  | fuel + 1, jwe :: rest, acc => do
    let jweStr ← match jwe with
      | .str s => pure s.data
      | _ => Except.error .attrError
    let subconfOpt ← get_clevis_config_from_jwe fuel jweStr
    let subconf ← match subconfOpt with
      | some c => pure c
      | none => Except.error .typeError
    let subpinVal ← pyGetItem subconf "pin"
    let subpin ← jsonDictKey subpinVal
    let payload ← pyGetItem subconf subpin
    sss_subpins fuel rest
      (match alistLookup acc subpin with
       | none => acc ++ [(subpin, [payload])]
       | some l => alistSet acc subpin (l ++ [payload]))

/-- Model of `get_clevis_config_from_jwe`: decode the part of the compact
JWE before the first dot as a protected header. -/
def get_clevis_config_from_jwe : Nat → List Char → Except PyErr (Option Json)
  | 0, _ => .error .recursionError
  | fuel + 1, jwe => get_clevis_config_from_protected_header fuel (headSegment jwe)

end

/-- Top-level entry point for decoding a protected header, with fuel ample
for any input of its length (each recursion step consumes several
characters of the encoded input). -/
def decode_header (h : List Char) : Except PyErr (Option Json) :=
  get_clevis_config_from_protected_header (2 * h.length + 8) h

/-- Top-level entry point for decoding a compact JWE. -/
def decode_jwe (jwe : List Char) : Except PyErr (Option Json) :=
  get_clevis_config_from_jwe (2 * jwe.length + 8) jwe

/-- Specification-level grouping of `(pin name, payload)` pairs in input
order: each pair is appended to the sequence held under its pin name,
the sequence being created at the end of the map on the name's first
occurrence.  `sss_subpins` is proven to realise this grouping. -/
def groupPins : List (String × List Json) → List (String × Json) →
    List (String × List Json)
  | acc, [] => acc
  | acc, (k, v) :: rest =>
    groupPins
      (match alistLookup acc k with
       | none => acc ++ [(k, [v])]
       | some l => alistSet acc k (l ++ [v]))
      rest

/-- The decode hypotheses for the children of an sss policy: pointwise
along `clevis.sss.jwe`, each JWE string recursively decodes (with the
given fuel) to a config whose own pin normalises to the recorded pin name
and whose entry under that name is the recorded payload. -/
def ChildrenDecode (fuel : Nat) : List String → List (String × Json) → Prop
  | [], [] => True
  | j :: jwes, kv :: children =>
    (∃ c pv, get_clevis_config_from_jwe fuel j.data = .ok (some c) ∧
      pyGetItem c "pin" = .ok pv ∧ jsonDictKey pv = .ok kv.1 ∧
      pyGetItem c kv.1 = .ok kv.2) ∧
    ChildrenDecode fuel jwes children
  | _, _ => False

/-! ### The state builder `info` -/

/-- Outcome of a completed external process: exit code and captured
standard output (bytes). -/
structure ProcOut where
  returncode : Int
  stdout : List Nat

/-- Environment of external processes consulted by `info`: the
`cryptsetup luksDump` invocation, the per-slot `luksmeta load`
invocations, and the `cryptsetup token export` invocations (keyed by the
token id digits exactly as matched from the dump).  `none` models a spawn
failure, i.e. `subprocess.run` raising `OSError`. -/
structure Env where
  luksDump : Option ProcOut
  luksmeta : Int → Option ProcOut
  tokenExport : List Nat → Option ProcOut

/-- Model of `bytes.splitlines` (accumulator variant): split on LF, CR
and CRLF, with no trailing empty line. -/
def splitlinesAux : List Nat → List Nat → List (List Nat)
  | [], [] => []
  | [], acc => [acc.reverse]
  | 10 :: rest, acc => acc.reverse :: splitlinesAux rest []
  | 13 :: 10 :: rest, acc => acc.reverse :: splitlinesAux rest []
  | 13 :: rest, acc => acc.reverse :: splitlinesAux rest []
  | b :: rest, acc => splitlinesAux rest (b :: acc)

/-- Model of `bytes.splitlines`. -/
def splitlines (bs : List Nat) : List (List Nat) := splitlinesAux bs []

/-- ASCII bytes of a string literal. -/
def bytesOfAscii (s : String) : List Nat := s.data.map Char.toNat

/-- Python `line.startswith(b)` for a single byte. -/
def startsWithByte (line : List Nat) (b : Nat) : Bool :=
  match line with
  | [] => false
  | c :: _ => c = b

/-- ASCII decimal digit byte. -/
def isDigitByte (b : Nat) : Bool := 48 ≤ b && b ≤ 57

/-- Drop a byte-list prefix, or fail. -/
def dropBytes : List Nat → List Nat → Option (List Nat)
  | [], l => some l
  | _ :: _, [] => none
  | p :: ps, x :: xs => if x = p then dropBytes ps xs else none

/-- Digits and remainder of a byte list (`[0-9]+` is greedy; the regex
tails below start with non-digits, so greediness is exact). -/
def spanDigits (bs : List Nat) : List Nat × List Nat :=
  (bs.takeWhile isDigitByte, bs.dropWhile isDigitByte)

/-- Model of `re.fullmatch(b"  ([0-9]+): luks2", line)`, returning the
captured digit bytes. -/
def matchSlotV2 (line : List Nat) : Option (List Nat) :=
  match dropBytes (bytesOfAscii "  ") line with
  | none => none
  | some rest =>
    let p := spanDigits rest
    if p.1 ≠ [] ∧ p.2 = bytesOfAscii ": luks2" then some p.1 else none

/-- Model of `re.fullmatch(b"Key Slot ([0-9]+): ENABLED", line)`. -/
def matchSlotV1 (line : List Nat) : Option (List Nat) :=
  match dropBytes (bytesOfAscii "Key Slot ") line with
  | none => none
  | some rest =>
    let p := spanDigits rest
    if p.1 ≠ [] ∧ p.2 = bytesOfAscii ": ENABLED" then some p.1 else none

/-- Model of `re.fullmatch(b"  ([0-9]+): clevis", line)`. -/
def matchTokenClevis (line : List Nat) : Option (List Nat) :=
  match dropBytes (bytesOfAscii "  ") line with
  | none => none
  | some rest =>
    let p := spanDigits rest
    if p.1 ≠ [] ∧ p.2 = bytesOfAscii ": clevis" then some p.1 else none

/-- Numeric value of captured digit bytes (`int(match.group(1))`). -/
def natOfDigitBytes (ds : List Nat) : Nat :=
  ds.foldl (fun a b => a * 10 + (b - 48)) 0

/-- Python whitespace stripped by `int()` on strings. -/
def isPySpace (c : Char) : Bool :=
  c = ' ' || c = '\t' || c = '\n' || c = '\r' || c = Char.ofNat 11 || c = Char.ofNat 12

/-- Digit tail of a Python integer literal, allowing single underscores
between digits. -/
def underscoreDigits : List Char → Option (List Char)
  | [] => some []
  | '_' :: c :: rest =>
    if isDigitChar c then (underscoreDigits rest).map (fun l => c :: l) else none
  | ['_'] => none
  | c :: rest =>
    if isDigitChar c then (underscoreDigits rest).map (fun l => c :: l) else none

/-- Model of Python `int(s)` on a string: surrounding whitespace and an
optional sign are allowed, digits may be grouped with single
underscores. -/
def pyIntOfStr (cs : List Char) : Except PyErr Int :=
  let trimmed := ((cs.dropWhile isPySpace).reverse.dropWhile isPySpace).reverse
  let neg := match trimmed with
    | '-' :: _ => true
    | _ => false
  let body := match trimmed with
    | '-' :: rest => rest
    | '+' :: rest => rest
    | other => other
  match body with
  | c :: rest =>
    if isDigitChar c then
      match underscoreDigits rest with
      | some ds =>
        .ok (if neg then -(natOfDigits (c :: ds) : Int) else (natOfDigits (c :: ds) : Int))
      | none => .error .valueError
    else .error .valueError
  | [] => .error .valueError

/-- Model of Python `int(x)` on a decoded JSON value. -/
def pyIntOfJson : Json → Except PyErr Int
  | .str s => pyIntOfStr s.data
  | .num n => .ok n
  | .bool b => .ok (if b then 1 else 0)
  | _ => .error .typeError

/-- Python iteration over a decoded JSON value (`for x in v`): lists
yield their elements, dicts their keys, strings their characters. -/
def pyIterate : Json → Except PyErr (List Json)
  | .arr l => .ok l
  | .obj fields => .ok (fields.map (fun kv => Json.str kv.1))
  | .str s => .ok (s.data.map (fun c => Json.str (String.mk [c])))
  | _ => .error .typeError

/-- One element of the emitted `slots` list.  The script builds every
slot entry as the dict `{"Index": {"v": slot}}`, optionally extended with
`"ClevisConfig": {"v": <serialised config>}`; this structure captures the
two possible shapes. -/
structure SlotEntry where
  index : Int
  clevisConfig : Option String
deriving DecidableEq

/-- The state returned by `info` and emitted by the monitor. -/
structure DeviceState where
  version : Nat
  slots : List SlotEntry
  max_slots : Nat
deriving DecidableEq

/-- Mutable state of the line loop inside `info`: the insertion-ordered
slot dict (keyed by slot index), the metadata version with its slot
bound, and the two section flags. -/
structure LoopState where
  slots : List (Int × SlotEntry)
  version : Nat
  max_slots : Nat
  in_luks2_slot_section : Bool
  in_luks2_token_section : Bool

/-- Lookup in the insertion-ordered slot dict. -/
def slotsLookup (l : List (Int × SlotEntry)) (k : Int) : Option SlotEntry :=
  match l with
  | [] => none
  | (k', v) :: rest => if k' = k then some v else slotsLookup rest k

/-- Assignment `slots[k] = v`: replace in place or append. -/
def slotsSet (l : List (Int × SlotEntry)) (k : Int) (v : SlotEntry) :
    List (Int × SlotEntry) :=
  match l with
  | [] => [(k, v)]
  | (k', v') :: rest =>
    if k' = k then (k', v) :: rest else (k', v') :: slotsSet rest k v

/-- The flag/version bookkeeping at the top of the loop body: reset both
section flags on a non-indented line, then recognise the two section
headers (the version-2 keyslot header also selects version 2 and 32
slots). -/
def update_flags (st : LoopState) (line : List Nat) : LoopState :=
  let st1 :=
    if ¬ (startsWithByte line 32 = true ∨ startsWithByte line 9 = true) then
      { st with in_luks2_slot_section := false, in_luks2_token_section := false }
    else st
  if line = bytesOfAscii "Keyslots:" then
    { st1 with in_luks2_slot_section := true, version := 2, max_slots := 32 }
  else if line = bytesOfAscii "Tokens:" then
    { st1 with in_luks2_token_section := true }
  else st1

/-- The entry built for a matched slot line: on version 1 consult
`luksmeta load` and, on success, attach the serialised decoded config. -/
def mk_slot_entry (env : Env) (version : Nat) (slot : Int) :
    Except PyErr SlotEntry := do
  if version = 1 then
    match env.luksmeta slot with
    | none => Except.error .osError
    | some res =>
      if res.returncode = 0 then do
        let s ← utf8_decode res.stdout
        let cfg ← decode_jwe s
        pure { index := slot, clevisConfig := some (json_dumps (cfg.getD .null)) }
      else pure { index := slot, clevisConfig := none }
  else pure { index := slot, clevisConfig := none }

/-- The slot dict after the slot-line part of the loop body: match
against the version-2 pattern inside the keyslot section and the
version-1 pattern otherwise; a matched slot is added only if its index is
not yet present (the entry, with its external lookups, is computed before
the membership test, as in the source). -/
def slot_update (env : Env) (st : LoopState) (line : List Nat) :
    Except PyErr (List (Int × SlotEntry)) :=
  match (if st.in_luks2_slot_section then matchSlotV2 line else matchSlotV1 line) with
  | none => pure st.slots
  | some digits => do
    let entry ← mk_slot_entry env st.version (natOfDigitBytes digits : Int)
    if (slotsLookup st.slots (natOfDigitBytes digits : Int)).isSome then pure st.slots
    else pure (st.slots ++ [((natOfDigitBytes digits : Int), entry)])

/-- The slot-line part of the loop body; it touches only the slot dict. -/
def process_slot (env : Env) (st : LoopState) (line : List Nat) :
    Except PyErr LoopState :=
  (slot_update env st line).map (fun sl => { st with slots := sl })

/-- Overwriting loop over a clevis token's `keyslots` entries. -/
def writeTokenSlots (config : String) :
    List Json → List (Int × SlotEntry) → Except PyErr (List (Int × SlotEntry))
  | [], slots => pure slots
  | el :: rest, slots => do
    let slot ← pyIntOfJson el
    writeTokenSlots config rest
      (slotsSet slots slot { index := slot, clevisConfig := some config })

/-- The slot dict after the token-line part of the loop body: inside the
token section, a `N: clevis` line triggers a token export; on exit code
zero and token type `"clevis"`, decode `jwe.protected` and overwrite
every listed keyslot with an entry carrying the serialised config. -/
def token_update (env : Env) (st : LoopState) (line : List Nat) :
    Except PyErr (List (Int × SlotEntry)) := do
  if st.in_luks2_token_section then
    match matchTokenClevis line with
    | none => pure st.slots
    | some digits =>
      match env.tokenExport digits with
      | none => Except.error .osError
      | some res =>
        if res.returncode = 0 then do
          let s ← utf8_decode res.stdout
          let token_object ← json_loads s
          let ty ← pyGet token_object "type"
          if ty.eqStr "clevis" then do
            let jweObj ← pyGetItem token_object "jwe"
            let protectedVal ← pyGetItem jweObj "protected"
            let pstr ← match protectedVal with
              | .str s2 => pure s2.data
              | _ => Except.error .typeError
            let cfg ← decode_header pstr
            let ks ← pyGetD token_object "keyslots" (.arr [])
            let items ← pyIterate ks
            writeTokenSlots (json_dumps (cfg.getD .null)) items st.slots
          else pure st.slots
        else pure st.slots
  else pure st.slots

/-- The token-line part of the loop body; it touches only the slot dict. -/
def process_token (env : Env) (st : LoopState) (line : List Nat) :
    Except PyErr LoopState :=
  (token_update env st line).map (fun sl => { st with slots := sl })

/-- One full iteration of the line loop inside `info`. -/
def process_line (env : Env) (st : LoopState) (line : List Nat) :
    Except PyErr LoopState := do
  let st3 ← process_slot env (update_flags st line) line
  process_token env st3 line

/-- The line loop of `info`. -/
def foldProcess (env : Env) : List (List Nat) → LoopState → Except PyErr LoopState
  | [], st => pure st
  | line :: rest, st => do
    let st2 ← process_line env st line
    foldProcess env rest st2

/-- The loop state at the top of `info`. -/
def initLoopState : LoopState :=
  { slots := [], version := 1, max_slots := 8,
    in_luks2_slot_section := false, in_luks2_token_section := false }

/-- Model of `info` (the slot-state builder): run `cryptsetup luksDump`,
return the default empty state on non-zero exit, otherwise scan the dump
line by line and assemble the state from the collected slot dict. -/
def info (env : Env) : Except PyErr DeviceState :=
  match env.luksDump with
  | none => .error .osError
  | some res =>
    if res.returncode ≠ 0 then .ok { version := 1, slots := [], max_slots := 8 }
    else do
      let fin ← foldProcess env (splitlines res.stdout) initLoopState
      pure { version := fin.version, slots := fin.slots.map Prod.snd,
             max_slots := fin.max_slots }

/-! ### The change monitor -/

/-- Python `hay.startswith(pat)` on bytes. -/
def bytesHavePrefix : List Nat → List Nat → Bool
  | _, [] => true
  | [], _ :: _ => false
  | x :: xs, p :: ps => x = p && bytesHavePrefix xs ps

/-- Python `pat in hay` on bytes (substring containment). -/
def bytesContains : List Nat → List Nat → Bool
  | [], pat => pat.isEmpty
  | x :: xs, pat => bytesHavePrefix (x :: xs) pat || bytesContains xs pat

/-- One event read from the `udevadm monitor` stream, paired with the
device environment in effect when the event is handled (the rebuild
consults the external tools at that moment). -/
structure MonitorEvent where
  line : List Nat
  env : Env

/-- The watching phase of `monitor`: for each event line containing the
resolved path, rebuild the state and emit it only when it differs from
the last emitted state.  Returns the list of emitted states after the
initial one. -/
def monitor_loop (path : List Nat) :
    List MonitorEvent → DeviceState → Except PyErr (List DeviceState)
  | [], _ => .ok []
  | ev :: rest, old =>
    if bytesContains ev.line path then do
      let newInfos ← info ev.env
      if newInfos ≠ old then do
        let more ← monitor_loop path rest newInfos
        pure (newInfos :: more)
      else monitor_loop path rest old
    else monitor_loop path rest old

/-- Model of `monitor` over a finite prefix of the event stream: the
primed state is emitted unconditionally, then the watching loop runs;
the result is the full list of emitted JSON states in order. -/
def monitor_emissions (path : List Nat) (env0 : Env)
    (events : List MonitorEvent) : Except PyErr (List DeviceState) := do
  let old ← info env0
  let more ← monitor_loop path events old
  pure (old :: more)

/-! ### Concrete scenarios

Fixtures used by the concrete theorems: a tang policy, a version-2 dump
with two keyslots and one clevis token over keyslot 2 (the synthetic case
of spec §8), a token whose protected header decodes to invalid JSON, and
degenerate environments. -/

/-- The tang clevis configuration used by the concrete scenarios. -/
def tangClevis : Json :=
  .obj [("pin", .str "tang"), ("tang", .obj [("url", .str "http://x")])]

/-- Unpadded base64url encoding of `{"clevis": <tangClevis>}`. -/
def tangProtected : List Char :=
  b64url_encode (utf8Encode (json_dumps (Json.obj [("clevis", tangClevis)])).data)

/-- A version-2 dump with keyslots 0 and 2 and clevis token 0. -/
def dumpV2Token : List Nat := bytesOfAscii
  "LUKS header information\nVersion: 2\nKeyslots:\n  0: luks2\n  2: luks2\nTokens:\n  0: clevis\nDigests:\n"

/-- The same dump without the token section. -/
def dumpV2Plain : List Nat := bytesOfAscii
  "LUKS header information\nVersion: 2\nKeyslots:\n  0: luks2\n  2: luks2\n"

/-- Export of token 0: type clevis, keyslots `["2"]`, tang header. -/
def tokenExportJson : String :=
  json_dumps (.obj [("type", .str "clevis"), ("keyslots", .arr [.str "2"]),
    ("jwe", .obj [("protected", .str (String.mk tangProtected))])])

/-- Environment for the §8 scenario with the token. -/
def envV2Token : Env :=
  { luksDump := some { returncode := 0, stdout := dumpV2Token },
    luksmeta := fun _ => none,
    tokenExport := fun d =>
      if d = [48] then some { returncode := 0, stdout := utf8Encode tokenExportJson.data }
      else none }

/-- Environment for the §8 scenario without the token. -/
def envV2Plain : Env :=
  { luksDump := some { returncode := 0, stdout := dumpV2Plain },
    luksmeta := fun _ => none, tokenExport := fun _ => none }

/-- Expected state for the §8 scenario with the token: slot 0 with no
policy, slot 2 carrying the serialised tang policy. -/
def stateV2Token : DeviceState :=
  { version := 2,
    slots := [{ index := 0, clevisConfig := none },
              { index := 2, clevisConfig :=
                some "\x7b\"pin\": \"tang\", \"tang\": \x7b\"url\": \"http://x\"\x7d\x7d" }],
    max_slots := 32 }

/-- Expected state for the §8 scenario without the token. -/
def stateV2Plain : DeviceState :=
  { version := 2,
    slots := [{ index := 0, clevisConfig := none },
              { index := 2, clevisConfig := none }],
    max_slots := 32 }

/-- A dump with one keyslot and one clevis token whose protected header
is `"ew"`, which base64-decodes to the single byte `{` — valid base64 and
UTF-8 but not JSON. -/
def dumpBadToken : List Nat :=
  bytesOfAscii "Keyslots:\n  0: luks2\nTokens:\n  0: clevis\n"

/-- Export of the bad token. -/
def badTokenJson : String :=
  json_dumps (.obj [("type", .str "clevis"), ("keyslots", .arr [.str "0"]),
    ("jwe", .obj [("protected", .str "ew")])])

/-- Environment delivering the bad token. -/
def envBadToken : Env :=
  { luksDump := some { returncode := 0, stdout := dumpBadToken },
    luksmeta := fun _ => none,
    tokenExport := fun d =>
      if d = [48] then some { returncode := 0, stdout := utf8Encode badTokenJson.data }
      else none }

/-- Environment in which `cryptsetup luksDump` cannot be invoked at all
(`subprocess.run` raises `OSError`). -/
def envNoTool : Env :=
  { luksDump := none, luksmeta := fun _ => none, tokenExport := fun _ => none }

/-- Environment in which `cryptsetup luksDump` exits with status 1. -/
def envFailDump : Env :=
  { luksDump := some { returncode := 1, stdout := [] },
    luksmeta := fun _ => none, tokenExport := fun _ => none }

/-- Protected header whose decoded pin is the literal string `"pin"`,
colliding with the fixed `"pin"` key of the result dict. -/
def pinPinProtected : List Char :=
  b64url_encode (utf8Encode "\x7b\"clevis\": \x7b\"pin\": \"pin\"\x7d\x7d".data)

/-- A loop state inside the keyslot section with slot 0 already
recorded. -/
def loopStateSlot0 : LoopState :=
  { slots := [(0, { index := 0, clevisConfig := none })], version := 2,
    max_slots := 32, in_luks2_slot_section := true,
    in_luks2_token_section := false }

/-- Protected header decoding to `{"clevis": {}}` (present but falsy). -/
def clevisFalsyProtected : List Char :=
  b64url_encode (utf8Encode "\x7b\"clevis\": \x7b\x7d\x7d".data)

/-- Protected header decoding to `{}` (no `clevis` key at all). -/
def emptyObjProtected : List Char :=
  b64url_encode (utf8Encode "\x7b\x7d".data)

/-- Protected header decoding to a clevis object with unknown pin
`"tpm2"`. -/
def tpm2Protected : List Char :=
  b64url_encode (utf8Encode "\x7b\"clevis\": \x7b\"pin\": \"tpm2\"\x7d\x7d".data)

/-- A second tang clevis configuration, distinct from `tangClevis`. -/
def tangClevisB : Json :=
  .obj [("pin", .str "tang"), ("tang", .obj [("url", .str "http://y")])]

/-- Unpadded base64url encoding of `{"clevis": <tangClevisB>}`. -/
def tangProtectedB : List Char :=
  b64url_encode (utf8Encode (json_dumps (Json.obj [("clevis", tangClevisB)])).data)

/-- Protected header of an sss policy with two tang children (compact
JWEs built from the two tang headers) and threshold 2. -/
def sssProtected : List Char :=
  b64url_encode (utf8Encode (json_dumps (Json.obj [("clevis",
    .obj [("pin", .str "sss"),
      ("sss", .obj [("t", .num 2),
        ("jwe", .arr [.str (String.mk (tangProtected ++ ['.', 'x'])),
                      .str (String.mk (tangProtectedB ++ ['.', 'y']))])])])])).data)

/-- Protected header of an sss policy with heterogeneous children: one
tang child and one unknown-pin (`tpm2`) child, threshold 1. -/
def sssMixedProtected : List Char :=
  b64url_encode (utf8Encode (json_dumps (Json.obj [("clevis",
    .obj [("pin", .str "sss"),
      ("sss", .obj [("t", .num 1),
        ("jwe", .arr [.str (String.mk (tangProtected ++ ['.', 'z'])),
                      .str (String.mk (tpm2Protected ++ ['.', 'w']))])])])])).data)

/-! ### Helper lemmas -/

/-- Bind on a successful `Except` computation. -/
@[simp] theorem except_bind_ok {α β : Type} (a : α) (f : α → Except PyErr β) :
    (Except.ok a >>= f) = f a := rfl

/-- Bind on a failed `Except` computation propagates the error. -/
@[simp] theorem except_bind_error {α β : Type} (e : PyErr)
    (f : α → Except PyErr β) :
    ((Except.error e : Except PyErr α) >>= f) = Except.error e := rfl

/-- Map on a successful `Except` computation. -/
@[simp] theorem except_map_ok {α β : Type} (a : α) (f : α → β) :
    Except.map f (Except.ok a : Except PyErr α) = Except.ok (f a) := rfl

/-- Map on a failed `Except` computation. -/
@[simp] theorem except_map_error {α β : Type} (e : PyErr) (f : α → β) :
    Except.map f (Except.error e : Except PyErr α) = Except.error e := rfl

/-- `pure` for the `Except` monad is `Except.ok`. -/
@[simp] theorem except_pure {α : Type} (a : α) :
    (pure a : Except PyErr α) = Except.ok a := rfl

/-- A key found in the front part of a slot dict is still found after
appending entries. -/
theorem slotsLookup_append (l tl : List (Int × SlotEntry)) (k : Int)
    (e : SlotEntry) (h : slotsLookup l k = some e) :
    slotsLookup (l ++ tl) k = some e := by
  induction l with
  | nil => simp [slotsLookup] at h
  | cons hd rest ih =>
    obtain ⟨k', v'⟩ := hd
    by_cases hk : k' = k
    · simp [slotsLookup, hk] at h ⊢
      exact h
    · simp [slotsLookup, hk] at h ⊢
      exact ih h

/-! ### Claims -/

/-- C2, counterexample: when the inspection tool cannot be invoked at all
(`subprocess.run` raises `OSError`), `info` does not return the default
state; the exception propagates. -/
theorem C2_counterexample :
    info envNoTool = .error .osError ∧
    info envNoTool ≠ .ok { version := 1, slots := [], max_slots := 8 } := by
  refine ⟨rfl, ?_⟩
  intro h
  rw [show info envNoTool = .error .osError from rfl] at h
  exact Except.noConfusion h

/-- C2, amended: on every device whose inspection tool runs and exits
non-zero, `info` returns exactly `{version: 1, slots: [], max_slots: 8}`
as a defined result; a spawn failure instead raises. -/
theorem C2_nonzero_exit_default (env : Env) (res : ProcOut)
    (hd : env.luksDump = some res) (hrc : res.returncode ≠ 0) :
    info env = .ok { version := 1, slots := [], max_slots := 8 } := by
  unfold info
  rw [hd]
  simp [hrc]

/-- C2, witness for the amended theorem at a concrete environment. -/
theorem C2_nonzero_exit_default_witness :
    info envFailDump = .ok { version := 1, slots := [], max_slots := 8 } :=
  C2_nonzero_exit_default envFailDump { returncode := 1, stdout := [] } rfl
    (by decide)

set_option maxRecDepth 100000 in
set_option maxHeartbeats 1000000 in
/-- C4: a token assignment `slots[slot] = entry` overwrites any existing
entry for that index, and in the spec §8 synthetic case (keyslots 0 and 2,
a clevis token over keyslot "2" with a tang header) the final state gives
slot 2 the serialised tang policy while slot 0 stays policy-absent. -/
theorem C4_token_overwrites :
    (∀ (slots : List (Int × SlotEntry)) (k : Int) (v : SlotEntry),
        slotsLookup (slotsSet slots k v) k = some v) ∧
    info envV2Token = .ok stateV2Token := by
  constructor
  · intro slots k v
    induction slots with
    | nil => simp [slotsSet, slotsLookup]
    | cons hd rest ih =>
      obtain ⟨k', v'⟩ := hd
      by_cases hk : k' = k
      · simp [slotsSet, slotsLookup, hk]
      · simp [slotsSet, slotsLookup, hk]
        exact ih
  · rfl

/-- C9: during the keyslot scan an already-present index is never
replaced — any entry found for a key before a slot line is still found
unchanged afterwards, and a matched slot index that is already present
leaves the loop state entirely unchanged. -/
theorem C9_first_occurrence_wins :
    (∀ (env : Env) (st : LoopState) (line : List Nat) (st' : LoopState)
        (k : Int) (e : SlotEntry),
        process_slot env st line = .ok st' →
        slotsLookup st.slots k = some e →
        slotsLookup st'.slots k = some e) ∧
    (∀ (env : Env) (st : LoopState) (line : List Nat) (st' : LoopState)
        (digits : List Nat),
        (if st.in_luks2_slot_section then matchSlotV2 line
         else matchSlotV1 line) = some digits →
        (slotsLookup st.slots (natOfDigitBytes digits : Int)).isSome →
        process_slot env st line = .ok st' →
        st' = st) := by
  constructor
  · intro env st line st' k e hok hfound
    unfold process_slot at hok
    cases hupd : slot_update env st line with
    | error e1 => rw [hupd] at hok; exact absurd hok (by simp)
    | ok sl =>
      rw [hupd] at hok
      simp only [except_map_ok, Except.ok.injEq] at hok
      rw [← hok]
      show slotsLookup sl k = some e
      unfold slot_update at hupd
      rcases hm : (if st.in_luks2_slot_section = true then matchSlotV2 line
        else matchSlotV1 line) with _ | digits
      · rw [hm] at hupd
        simp only [] at hupd
        simp only [except_pure, Except.ok.injEq] at hupd
        rw [← hupd]
        exact hfound
      · rw [hm] at hupd
        simp only [] at hupd
        cases hmk : mk_slot_entry env st.version (natOfDigitBytes digits : Int) with
        | error e2 => rw [hmk] at hupd; simp at hupd
        | ok entry =>
          rw [hmk] at hupd
          simp only [except_bind_ok] at hupd
          by_cases hpres : (slotsLookup st.slots (natOfDigitBytes digits : Int)).isSome
          · rw [if_pos (by exact_mod_cast hpres)] at hupd
            simp only [except_pure, Except.ok.injEq] at hupd
            rw [← hupd]
            exact hfound
          · rw [if_neg (by exact_mod_cast hpres)] at hupd
            simp only [except_pure, Except.ok.injEq] at hupd
            rw [← hupd]
            exact slotsLookup_append _ _ _ _ hfound
  · intro env st line st' digits hm hpres hok
    unfold process_slot at hok
    unfold slot_update at hok
    rw [show (if st.in_luks2_slot_section = true then matchSlotV2 line
      else matchSlotV1 line) = some digits from hm] at hok
    simp only [] at hok
    cases hmk : mk_slot_entry env st.version (natOfDigitBytes digits : Int) with
    | error e2 => rw [hmk] at hok; simp at hok
    | ok entry =>
      rw [hmk] at hok
      simp only [except_bind_ok] at hok
      rw [if_pos hpres] at hok
      simp only [except_pure, except_map_ok, Except.ok.injEq] at hok
      exact hok.symm

/-- C9, witness: a slot line for index 0 while index 0 is already present
leaves the loop state unchanged. -/
theorem C9_first_occurrence_wins_witness :
    loopStateSlot0 = loopStateSlot0 :=
  C9_first_occurrence_wins.2 envNoTool loopStateSlot0
    (bytesOfAscii "  0: luks2") loopStateSlot0 [48] (by decide) (by decide) rfl

/-- C10: a decoded header whose `clevis` member is falsy (an empty object,
`null`, or the `None` default for a missing key) makes the decoder return
the absent descriptor exactly as when the key is missing: the test is the
value's truthiness, not key presence. -/
theorem C10_falsy_clevis_absent (fuel : Nat) (h : List Char) (bs : List Nat)
    (cs : List Char) (obj clevis : Json)
    (hb : b64_decode h = .ok bs) (hu : utf8_decode bs = .ok cs)
    (hj : json_loads cs = .ok obj) (hc : pyGet obj "clevis" = .ok clevis)
    (ht : clevis.truthy = false) :
    get_clevis_config_from_protected_header (fuel + 1) h = .ok none := by
  simp only [get_clevis_config_from_protected_header, hb, except_bind_ok, hu,
    hj, hc, ht, Bool.false_eq_true, if_false, except_pure]

set_option maxRecDepth 100000 in
set_option maxHeartbeats 1000000 in
/-- C10, witness: the header decoding to `{"clevis": {}}`. -/
theorem C10_falsy_clevis_absent_witness :
    get_clevis_config_from_protected_header 1 clevisFalsyProtected = .ok none :=
  C10_falsy_clevis_absent 0 clevisFalsyProtected _ _ _ _ rfl rfl rfl rfl rfl

set_option maxRecDepth 100000 in
set_option maxHeartbeats 1000000 in
/-- C8, counterexample: when the unknown pin is the literal string
`"pin"`, the dict literal `{"pin": pin, pin: {}}` collapses to one key,
so the result is `{"pin": {}}` and not a descriptor that carries the pin
string alongside a separate placeholder keyed by the pin name. -/
theorem C8_counterexample :
    decode_header pinPinProtected = .ok (some (.obj [("pin", .obj [])])) ∧
    Json.obj [("pin", Json.obj [])] ≠
      Json.obj [("pin", Json.str "pin"), ("pin", Json.obj [])] := by
  refine ⟨rfl, ?_⟩
  intro hcontra
  injection hcontra with hfields
  simp at hfields

/-- C8, amended: a decoded header without a truthy `clevis` yields the
absent descriptor (not an error); an unknown string pin `p` outside
`{"tang", "sss"}` yields `{"pin": p, p: {}}` whenever `p ≠ "pin"`; for
`p = "pin"` the two dict keys collide and the result is `{"pin": {}}`. -/
theorem C8_unknown_pin :
    (∀ (fuel : Nat) (h : List Char) (bs : List Nat) (cs : List Char)
        (fields : List (String × Json)),
        b64_decode h = .ok bs → utf8_decode bs = .ok cs →
        json_loads cs = .ok (.obj fields) →
        fieldsLookup fields "clevis" = none →
        get_clevis_config_from_protected_header (fuel + 1) h = .ok none) ∧
    (∀ (fuel : Nat) (h : List Char) (bs : List Nat) (cs : List Char)
        (obj clevis : Json) (p : String),
        b64_decode h = .ok bs → utf8_decode bs = .ok cs →
        json_loads cs = .ok obj → pyGet obj "clevis" = .ok clevis →
        clevis.truthy = true → pyGet clevis "pin" = .ok (.str p) →
        p ≠ "tang" → p ≠ "sss" → p ≠ "pin" →
        get_clevis_config_from_protected_header (fuel + 1) h =
          .ok (some (.obj [("pin", .str p), (p, .obj [])]))) ∧
    (∀ (fuel : Nat) (h : List Char) (bs : List Nat) (cs : List Char)
        (obj clevis : Json),
        b64_decode h = .ok bs → utf8_decode bs = .ok cs →
        json_loads cs = .ok obj → pyGet obj "clevis" = .ok clevis →
        clevis.truthy = true → pyGet clevis "pin" = .ok (.str "pin") →
        get_clevis_config_from_protected_header (fuel + 1) h =
          .ok (some (.obj [("pin", .obj [])]))) := by
  refine ⟨?_, ?_, ?_⟩
  · intro fuel h bs cs fields hb hu hj hnone
    simp only [get_clevis_config_from_protected_header, hb, except_bind_ok, hu,
      hj, pyGet, hnone, Option.getD_none, Json.truthy, Bool.false_eq_true,
      if_false, except_pure]
  · intro fuel h bs cs obj clevis p hb hu hj hc htr hpin hp1 hp2 hp3
    simp only [get_clevis_config_from_protected_header, hb, except_bind_ok, hu,
      hj, hc, htr, if_true, hpin, Json.eqStr, hp1, hp2, decide_False,
      Bool.false_eq_true, if_false, jsonDictKey, fieldsSet, Ne.symm hp3,
      except_pure]
  · intro fuel h bs cs obj clevis hb hu hj hc htr hpin
    simp only [get_clevis_config_from_protected_header, hb, except_bind_ok, hu,
      hj, hc, htr, if_true, hpin, Json.eqStr,
      (show ("pin" : String) ≠ "tang" by decide),
      (show ("pin" : String) ≠ "sss" by decide), decide_False,
      Bool.false_eq_true, if_false, jsonDictKey, fieldsSet,
      eq_self_iff_true, if_true, except_pure]

set_option maxRecDepth 100000 in
set_option maxHeartbeats 1000000 in
/-- C8, witness: the three cases at concrete headers (`{}`, unknown pin
`"tpm2"`, colliding pin `"pin"`). -/
theorem C8_unknown_pin_witness :
    get_clevis_config_from_protected_header 3 emptyObjProtected = .ok none ∧
    get_clevis_config_from_protected_header 3 tpm2Protected =
      .ok (some (.obj [("pin", .str "tpm2"), ("tpm2", .obj [])])) ∧
    get_clevis_config_from_protected_header 3 pinPinProtected =
      .ok (some (.obj [("pin", .obj [])])) :=
  ⟨C8_unknown_pin.1 2 emptyObjProtected _ _ _ rfl rfl rfl rfl,
   C8_unknown_pin.2.1 2 tpm2Protected _ _ _ _ "tpm2" rfl rfl rfl rfl rfl rfl
     (by decide) (by decide) (by decide),
   C8_unknown_pin.2.2 2 pinPinProtected _ _ _ _ rfl rfl rfl rfl rfl rfl⟩

set_option maxRecDepth 100000 in
set_option maxHeartbeats 1000000 in
/-- C1, counterexample: the header `"ew"` base64-decodes to the byte `{`,
which is valid UTF-8 but not JSON; decoding it raises (an error value),
it does not yield an absent policy, and the state build over a dump that
reaches this token aborts with the error instead of finishing the scan. -/
theorem C1_counterexample :
    decode_header "ew".data = .error .jsonError ∧
    decode_header "ew".data ≠ .ok none ∧
    info envBadToken = .error .jsonError := by
  refine ⟨rfl, ?_, rfl⟩
  intro hcontra
  rw [show decode_header "ew".data = .error .jsonError from rfl] at hcontra
  exact Except.noConfusion hcontra

/-- C1, amended: a failure of the decode pipeline (malformed base64,
invalid UTF-8 or invalid JSON) is raised by the decoder rather than
returned as an absent policy, and the caller does not catch it: a clevis
token whose protected header fails to decode makes the token handler
return the error, an error on one line aborts the scan of the remaining
lines, and `info` returns the error instead of a state. -/
theorem C1_decode_failure_raises :
    (∀ (h : List Char) (e : PyErr) (fuel : Nat),
        (b64_decode h >>= fun bs => utf8_decode bs >>= fun cs => json_loads cs)
          = .error e →
        get_clevis_config_from_protected_header (fuel + 1) h = .error e) ∧
    (∀ (env : Env) (st : LoopState) (line digits : List Nat) (res : ProcOut)
        (s : List Char) (tobj ty jw : Json) (p : String) (e : PyErr),
        st.in_luks2_token_section = true →
        matchTokenClevis line = some digits →
        env.tokenExport digits = some res →
        res.returncode = 0 →
        utf8_decode res.stdout = .ok s →
        json_loads s = .ok tobj →
        pyGet tobj "type" = .ok ty →
        ty.eqStr "clevis" = true →
        pyGetItem tobj "jwe" = .ok jw →
        pyGetItem jw "protected" = .ok (.str p) →
        decode_header p.data = .error e →
        process_token env st line = .error e) ∧
    (∀ (env : Env) (st : LoopState) (line : List Nat) (rest : List (List Nat))
        (e : PyErr),
        process_line env st line = .error e →
        foldProcess env (line :: rest) st = .error e) ∧
    (∀ (env : Env) (res : ProcOut) (e : PyErr),
        env.luksDump = some res → res.returncode = 0 →
        foldProcess env (splitlines res.stdout) initLoopState = .error e →
        info env = .error e) := by
  refine ⟨?_, ?_, ?_, ?_⟩
  · intro h e fuel hfail
    simp only [get_clevis_config_from_protected_header]
    cases hb : b64_decode h with
    | error e1 =>
      rw [hb, except_bind_error] at hfail
      simp only [except_bind_error]
      injection hfail with hee
      rw [hee]
    | ok bs =>
      rw [hb, except_bind_ok] at hfail
      simp only [except_bind_ok]
      cases hu : utf8_decode bs with
      | error e2 =>
        rw [hu, except_bind_error] at hfail
        simp only [except_bind_error]
        injection hfail with hee
        rw [hee]
      | ok cs =>
        rw [hu, except_bind_ok] at hfail
        simp only [except_bind_ok]
        cases hj : json_loads cs with
        | error e3 =>
          rw [hj] at hfail
          simp only [except_bind_error]
          injection hfail with hee
          rw [hee]
        | ok obj =>
          rw [hj] at hfail
          exact absurd hfail (by simp)
  · intro env st line digits res s tobj ty jw p e hst hm hx hrc hs hj hty htyc
      hjw hp he
    unfold process_token token_update
    rw [hst]
    simp only [eq_self_iff_true, if_true]
    rw [hm]
    simp only []
    rw [hx]
    simp only []
    rw [hrc]
    simp only [eq_self_iff_true, if_true]
    rw [hs]
    simp only [except_bind_ok]
    rw [hj]
    simp only [except_bind_ok]
    rw [hty]
    simp only [except_bind_ok]
    rw [htyc]
    simp only [eq_self_iff_true, if_true]
    rw [hjw]
    simp only [except_bind_ok]
    rw [hp]
    simp only [except_bind_ok, except_pure]
    rw [he]
    simp only [except_bind_error, except_map_error]
  · intro env st line rest e hpl
    unfold foldProcess
    rw [hpl, except_bind_error]
  · intro env res e hd hrc hfold
    unfold info
    rw [hd]
    simp only [hrc, ne_eq, not_true_eq_false, if_false]
    rw [hfold, except_bind_error]

set_option maxRecDepth 100000 in
set_option maxHeartbeats 1000000 in
/-- C1, witness: the decoder raises on `"ew"`, and `info` over the dump
that reaches the bad token aborts with that error. -/
theorem C1_decode_failure_raises_witness :
    get_clevis_config_from_protected_header 3 "ew".data = .error .jsonError ∧
    info envBadToken = .error .jsonError :=
  ⟨C1_decode_failure_raises.1 "ew".data .jsonError 2 rfl,
   C1_decode_failure_raises.2.2.2 envBadToken
     { returncode := 0, stdout := dumpBadToken } .jsonError rfl rfl rfl⟩

/-- `update_flags` selects version 2 with 32 slots exactly on the
`Keyslots:` header line and keeps version and slot bound otherwise. -/
theorem update_flags_version (st : LoopState) (line : List Nat) :
    ((update_flags st line).version = 2 ∧ (update_flags st line).max_slots = 32 ∧
      line = bytesOfAscii "Keyslots:") ∨
    ((update_flags st line).version = st.version ∧
      (update_flags st line).max_slots = st.max_slots ∧
      line ≠ bytesOfAscii "Keyslots:") := by
  unfold update_flags
  by_cases hk : line = bytesOfAscii "Keyslots:"
  · left
    rw [if_pos hk]
    exact ⟨rfl, rfl, hk⟩
  · right
    rw [if_neg hk]
    refine ⟨?_, ?_, hk⟩ <;>
      · split
        · split <;> rfl
        · split <;> rfl

/-- A successful slot step changes only the slot dict. -/
theorem process_slot_fields (env : Env) (st : LoopState) (line : List Nat)
    (st' : LoopState) (h : process_slot env st line = .ok st') :
    st'.version = st.version ∧ st'.max_slots = st.max_slots ∧
    st'.in_luks2_slot_section = st.in_luks2_slot_section ∧
    st'.in_luks2_token_section = st.in_luks2_token_section := by
  unfold process_slot at h
  cases hu : slot_update env st line with
  | error e => rw [hu] at h; simp at h
  | ok sl =>
    rw [hu] at h
    simp only [except_map_ok, Except.ok.injEq] at h
    rw [← h]
    exact ⟨rfl, rfl, rfl, rfl⟩

/-- A successful token step changes only the slot dict. -/
theorem process_token_fields (env : Env) (st : LoopState) (line : List Nat)
    (st' : LoopState) (h : process_token env st line = .ok st') :
    st'.version = st.version ∧ st'.max_slots = st.max_slots ∧
    st'.in_luks2_slot_section = st.in_luks2_slot_section ∧
    st'.in_luks2_token_section = st.in_luks2_token_section := by
  unfold process_token at h
  cases hu : token_update env st line with
  | error e => rw [hu] at h; simp at h
  | ok sl =>
    rw [hu] at h
    simp only [except_map_ok, Except.ok.injEq] at h
    rw [← h]
    exact ⟨rfl, rfl, rfl, rfl⟩

/-- One loop iteration either sets version 2 with 32 slots (exactly on
the `Keyslots:` line) or keeps version and slot bound. -/
theorem process_line_version (env : Env) (st : LoopState) (line : List Nat)
    (st' : LoopState) (h : process_line env st line = .ok st') :
    (st'.version = 2 ∧ st'.max_slots = 32 ∧ line = bytesOfAscii "Keyslots:") ∨
    (st'.version = st.version ∧ st'.max_slots = st.max_slots ∧
      line ≠ bytesOfAscii "Keyslots:") := by
  unfold process_line at h
  cases hs : process_slot env (update_flags st line) line with
  | error e => rw [hs] at h; simp at h
  | ok st3 =>
    rw [hs] at h
    simp only [except_bind_ok] at h
    have h3 := process_slot_fields env (update_flags st line) line st3 hs
    have h4 := process_token_fields env st3 line st' h
    rcases update_flags_version st line with ⟨v2, m32, hk⟩ | ⟨veq, meq, hk⟩
    · left
      exact ⟨by rw [h4.1, h3.1, v2], by rw [h4.2.1, h3.2.1, m32], hk⟩
    · right
      exact ⟨by rw [h4.1, h3.1, veq], by rw [h4.2.1, h3.2.1, meq], hk⟩

/-- Over a whole scan, version and slot bound stay as they started if no
`Keyslots:` line occurs, and are 2 and 32 if one occurs. -/
theorem foldProcess_version (env : Env) (lines : List (List Nat)) :
    ∀ (st st' : LoopState), foldProcess env lines st = .ok st' →
    ((st'.version = st.version ∧ st'.max_slots = st.max_slots ∧
        bytesOfAscii "Keyslots:" ∉ lines) ∨
      (st'.version = 2 ∧ st'.max_slots = 32 ∧
        bytesOfAscii "Keyslots:" ∈ lines)) := by
  induction lines with
  | nil =>
    intro st st' h
    unfold foldProcess at h
    simp only [except_pure, Except.ok.injEq] at h
    left
    rw [← h]
    exact ⟨rfl, rfl, by simp⟩
  | cons line rest ih =>
    intro st st' h
    unfold foldProcess at h
    cases hl : process_line env st line with
    | error e => rw [hl] at h; simp at h
    | ok st2 =>
      rw [hl] at h
      simp only [except_bind_ok] at h
      rcases process_line_version env st line st2 hl with ⟨v2, m32, hk⟩ | ⟨veq, meq, hk⟩
      · rcases ih st2 st' h with ⟨veq', meq', _⟩ | ⟨v2', m32', _⟩
        · right
          exact ⟨by rw [veq', v2], by rw [meq', m32], by rw [hk]; exact List.mem_cons_self _ _⟩
        · right
          exact ⟨v2', m32', by rw [hk]; exact List.mem_cons_self _ _⟩
      · rcases ih st2 st' h with ⟨veq', meq', hnin⟩ | ⟨v2', m32', hin⟩
        · left
          refine ⟨by rw [veq', veq], by rw [meq', meq], ?_⟩
          intro hmem
          rcases List.mem_cons.mp hmem with hc | hc
          · exact hk hc.symm
          · exact hnin hc
        · right
          exact ⟨v2', m32', List.mem_cons_of_mem _ hin⟩

/-- C5: every state returned by `info` satisfies
`version = 1 ∧ max_slots = 8` or `version = 2 ∧ max_slots = 32`, and
version 2 holds exactly when the dump ran successfully and contained the
version-2 keyslot section marker. -/
theorem C5_version_max_invariant (env : Env) (st : DeviceState)
    (h : info env = .ok st) :
    ((st.version = 1 ∧ st.max_slots = 8) ∨
      (st.version = 2 ∧ st.max_slots = 32)) ∧
    (st.version = 2 ↔ ∃ res : ProcOut, env.luksDump = some res ∧
        res.returncode = 0 ∧
        bytesOfAscii "Keyslots:" ∈ splitlines res.stdout) := by
  unfold info at h
  cases hd : env.luksDump with
  | none => rw [hd] at h; simp at h
  | some res =>
    rw [hd] at h
    simp only [] at h
    by_cases hrc : res.returncode ≠ 0
    · rw [if_pos hrc] at h
      simp only [Except.ok.injEq] at h
      refine ⟨Or.inl ⟨by rw [← h], by rw [← h]⟩, ?_, ?_⟩
      · intro hv
        rw [← h] at hv
        simp at hv
      · rintro ⟨res', hres', hrc', _⟩
        injection hres' with he
        exact absurd hrc' (he ▸ hrc)
    · rw [if_neg hrc] at h
      push_neg at hrc
      cases hf : foldProcess env (splitlines res.stdout) initLoopState with
      | error e => rw [hf] at h; simp at h
      | ok fin =>
        rw [hf] at h
        simp only [except_bind_ok, except_pure, Except.ok.injEq] at h
        rcases foldProcess_version env (splitlines res.stdout) initLoopState fin hf
          with ⟨veq, meq, hnin⟩ | ⟨v2, m32, hin⟩
        · refine ⟨Or.inl ⟨by rw [← h]; exact veq, by rw [← h]; exact meq⟩, ?_, ?_⟩
          · intro hv
            rw [← h] at hv
            rw [veq] at hv
            simp [initLoopState] at hv
          · rintro ⟨res', hres', _, hmem⟩
            injection hres' with he
            exact absurd hmem (he ▸ hnin)
        · refine ⟨Or.inr ⟨by rw [← h]; exact v2, by rw [← h]; exact m32⟩, ?_, ?_⟩
          · intro _
            exact ⟨res, rfl, hrc, hin⟩
          · intro _
            rw [← h]
            exact v2

set_option maxRecDepth 100000 in
set_option maxHeartbeats 1000000 in
/-- C5, witness: the invariant at the concrete version-2 environment. -/
theorem C5_version_max_invariant_witness :
    ((stateV2Plain.version = 1 ∧ stateV2Plain.max_slots = 8) ∨
      (stateV2Plain.version = 2 ∧ stateV2Plain.max_slots = 32)) ∧
    (stateV2Plain.version = 2 ↔ ∃ res : ProcOut,
        envV2Plain.luksDump = some res ∧ res.returncode = 0 ∧
        bytesOfAscii "Keyslots:" ∈ splitlines res.stdout) :=
  C5_version_max_invariant envV2Plain stateV2Plain rfl

/-- The states emitted by the watching loop, prefixed with the state they
started from, are pairwise distinct in sequence. -/
theorem monitor_loop_chain (path : List Nat) (events : List MonitorEvent) :
    ∀ (old : DeviceState) (l : List DeviceState),
    monitor_loop path events old = .ok l →
    List.Chain' (fun a b => a ≠ b) (old :: l) := by
  induction events with
  | nil =>
    intro old l h
    unfold monitor_loop at h
    simp only [Except.ok.injEq] at h
    rw [← h]
    simp
  | cons ev rest ih =>
    intro old l h
    unfold monitor_loop at h
    by_cases hc : bytesContains ev.line path = true
    · rw [if_pos hc] at h
      cases hi : info ev.env with
      | error e => rw [hi] at h; simp at h
      | ok newI =>
        rw [hi] at h
        simp only [except_bind_ok] at h
        by_cases hne : newI ≠ old
        · rw [if_pos hne] at h
          cases hr : monitor_loop path rest newI with
          | error e => rw [hr] at h; simp at h
          | ok more =>
            rw [hr] at h
            simp only [except_bind_ok, except_pure, Except.ok.injEq] at h
            rw [← h]
            exact List.chain'_cons.mpr ⟨Ne.symm hne, ih newI more hr⟩
        · rw [if_neg hne] at h
          exact ih old l h
    · rw [if_neg hc] at h
      exact ih old l h

/-- C6: the monitor emits exactly one line at startup (and only that line
when no events arrive); consecutive emitted states are always distinct, so
two identical consecutive rebuilds never emit twice; an event not
containing the path, or a matching event whose rebuilt state equals the
last emitted one, leaves the emission sequence unchanged. -/
theorem C6_monitor_emissions (path : List Nat) (env0 : Env)
    (events : List MonitorEvent) (st0 : DeviceState) (l : List DeviceState)
    (h0 : info env0 = .ok st0)
    (h : monitor_emissions path env0 events = .ok l) :
    l.head? = some st0 ∧
    (events = [] → l = [st0]) ∧
    List.Chain' (fun a b => a ≠ b) l ∧
    (∀ (ev : MonitorEvent) (evs : List MonitorEvent) (old : DeviceState),
        bytesContains ev.line path = false →
        monitor_loop path (ev :: evs) old = monitor_loop path evs old) ∧
    (∀ (ev : MonitorEvent) (evs : List MonitorEvent) (old : DeviceState),
        bytesContains ev.line path = true → info ev.env = .ok old →
        monitor_loop path (ev :: evs) old = monitor_loop path evs old) := by
  unfold monitor_emissions at h
  rw [h0] at h
  simp only [except_bind_ok] at h
  cases hr : monitor_loop path events st0 with
  | error e => rw [hr] at h; simp at h
  | ok more =>
    rw [hr] at h
    simp only [except_bind_ok, except_pure, Except.ok.injEq] at h
    refine ⟨?_, ?_, ?_, ?_, ?_⟩
    · rw [← h]
      rfl
    · intro hev
      subst hev
      unfold monitor_loop at hr
      simp only [Except.ok.injEq] at hr
      rw [← h, ← hr]
    · rw [← h]
      exact monitor_loop_chain path events st0 more hr
    · intro ev evs old hc
      simp only [monitor_loop]
      rw [if_neg (by simp [hc])]
    · intro ev evs old hc hi
      simp only [monitor_loop]
      rw [if_pos hc, hi]
      simp only [except_bind_ok]
      rw [if_neg (by simp : ¬ old ≠ old)]

/-- Value found in a concatenation of association lists: the front part
wins. -/
theorem alistLookup_append {α : Type} (l1 l2 : List (String × α)) (k : String) :
    alistLookup (l1 ++ l2) k =
      match alistLookup l1 k with
      | some v => some v
      | none => alistLookup l2 k := by
  induction l1 with
  | nil => simp [alistLookup]
  | cons hd tl ih =>
    obtain ⟨k', v'⟩ := hd
    by_cases hk : k' = k <;> simp [alistLookup, hk, ih]

/-- `alistSet` binds the written key and leaves every other key alone. -/
theorem alistLookup_set {α : Type} (l : List (String × α)) (k' k : String)
    (v : α) :
    alistLookup (alistSet l k' v) k =
      if k' = k then some v else alistLookup l k := by
  induction l with
  | nil => by_cases hk : k' = k <;> simp [alistSet, alistLookup, hk]
  | cons hd tl ih =>
    obtain ⟨k0, v0⟩ := hd
    by_cases h0 : k0 = k'
    · subst h0
      by_cases hk : k0 = k <;> simp [alistSet, alistLookup, hk]
    · by_cases hk : k0 = k
      · subst hk
        have hne : ¬ k' = k0 := fun hcon => h0 hcon.symm
        simp [alistSet, alistLookup, h0, hne]
      · simp [alistSet, alistLookup, h0, hk, ih]

/-- The bucket a pin name holds after grouping: the payloads of exactly
the children carrying that pin name, in input order, appended after
whatever the accumulator already held under that name. -/
theorem groupPins_lookup (k : String) :
    ∀ (children : List (String × Json)) (acc : List (String × List Json)),
    alistLookup (groupPins acc children) k =
      match alistLookup acc k,
          (children.filter (fun kv => kv.1 = k)).map Prod.snd with
      | some l0, l => some (l0 ++ l)
      | none, [] => none
      | none, l => some l := by
  intro children
  induction children with
  | nil =>
    intro acc
    cases hl : alistLookup acc k <;> simp [groupPins, hl]
  | cons kv children' ih =>
    intro acc
    obtain ⟨k', v⟩ := kv
    by_cases hkk : k' = k
    · subst hkk
      cases hl : alistLookup acc k' with
      | none =>
        have hl2 : alistLookup (acc ++ [(k', [v])]) k' = some [v] := by
          rw [alistLookup_append, hl]
          simp [alistLookup]
        simp only [groupPins, hl]
        rw [ih, hl2]
        simp [List.filter_cons]
      | some l0 =>
        have hl2 : alistLookup (alistSet acc k' (l0 ++ [v])) k' =
            some (l0 ++ [v]) := by
          rw [alistLookup_set]
          simp
        simp only [groupPins, hl]
        rw [ih, hl2]
        simp [List.filter_cons]
    · have hfc : List.filter (fun kv => kv.1 = k) ((k', v) :: children') =
          List.filter (fun kv => kv.1 = k) children' := by
        simp [List.filter_cons, hkk]
      cases hl' : alistLookup acc k' with
      | none =>
        have hleq : alistLookup (acc ++ [(k', [v])]) k = alistLookup acc k := by
          rw [alistLookup_append]
          cases alistLookup acc k <;> simp [alistLookup, hkk]
        simp only [groupPins, hl']
        rw [ih, hleq, hfc]
      | some l =>
        have hleq : alistLookup (alistSet acc k' (l ++ [v])) k =
            alistLookup acc k := by
          rw [alistLookup_set]
          simp [hkk]
        simp only [groupPins, hl']
        rw [ih, hleq, hfc]

/-- One extra unit of fuel never changes an outcome other than fuel
exhaustion, for the three mutually recursive decoding functions. -/
theorem decode_fuel_step (f : Nat) :
    (∀ x : List Char,
        get_clevis_config_from_protected_header f x = .error .recursionError ∨
        get_clevis_config_from_protected_header (f + 1) x =
          get_clevis_config_from_protected_header f x) ∧
    (∀ (jwes : List Json) (acc : List (String × List Json)),
        sss_subpins f jwes acc = .error .recursionError ∨
        sss_subpins (f + 1) jwes acc = sss_subpins f jwes acc) ∧
    (∀ x : List Char,
        get_clevis_config_from_jwe f x = .error .recursionError ∨
        get_clevis_config_from_jwe (f + 1) x =
          get_clevis_config_from_jwe f x) := by
  induction f with
  | zero =>
    exact ⟨fun x => Or.inl rfl, fun jwes acc => Or.inl rfl, fun x => Or.inl rfl⟩
  | succ f ih =>
    obtain ⟨ihH, ihS, ihJ⟩ := ih
    have hH : ∀ x : List Char,
        get_clevis_config_from_protected_header (f + 1) x =
          .error .recursionError ∨
        get_clevis_config_from_protected_header (f + 2) x =
          get_clevis_config_from_protected_header (f + 1) x := by
      intro x
      simp only [get_clevis_config_from_protected_header]
      cases hb : b64_decode x with
      | error e => right; trivial
      | ok bs =>
        simp only [except_bind_ok]
        cases hu : utf8_decode bs with
        | error e => right; trivial
        | ok cs =>
          simp only [except_bind_ok]
          cases hj : json_loads cs with
          | error e => right; trivial
          | ok obj =>
            simp only [except_bind_ok]
            cases hc : pyGet obj "clevis" with
            | error e => right; trivial
            | ok clevis =>
              simp only [except_bind_ok]
              by_cases htr : clevis.truthy = true
              · rw [htr]
                simp only [eq_self_iff_true, if_true]
                cases hp : pyGet clevis "pin" with
                | error e => right; trivial
                | ok pin =>
                  simp only [except_bind_ok]
                  by_cases ht1 : pin.eqStr "tang" = true
                  · rw [ht1]
                    simp only [eq_self_iff_true, if_true]
                    right; trivial
                  · rw [Bool.not_eq_true] at ht1
                    rw [ht1]
                    simp only [Bool.false_eq_true, if_false]
                    by_cases ht2 : pin.eqStr "sss" = true
                    · rw [ht2]
                      simp only [eq_self_iff_true, if_true]
                      cases hs : pyGetItem clevis "sss" with
                      | error e => right; trivial
                      | ok sss =>
                        simp only [except_bind_ok]
                        cases hw : pyGetItem sss "jwe" with
                        | error e => right; trivial
                        | ok jwes =>
                          simp only [except_bind_ok]
                          cases jwes with
                          | arr l =>
                            simp only [except_pure, except_bind_ok]
                            rcases ihS l [] with hrec | heq
                            · left
                              rw [hrec]
                              rfl
                            · right
                              rw [heq]
                          | null => right; trivial
                          | bool b => right; trivial
                          | num n => right; trivial
                          | str s2 => right; trivial
                          | obj fl => right; trivial
                    · rw [Bool.not_eq_true] at ht2
                      rw [ht2]
                      simp only [Bool.false_eq_true, if_false]
                      right; trivial
              · rw [Bool.not_eq_true] at htr
                rw [htr]
                simp only [Bool.false_eq_true, if_false]
                right; trivial
    have hS : ∀ (jwes : List Json) (acc : List (String × List Json)),
        sss_subpins (f + 1) jwes acc = .error .recursionError ∨
        sss_subpins (f + 2) jwes acc = sss_subpins (f + 1) jwes acc := by
      intro jwes acc
      cases jwes with
      | nil => right; trivial
      | cons jwe rest =>
        simp only [sss_subpins]
        cases jwe with
        | str s2 =>
          simp only [except_pure, except_bind_ok]
          rcases ihJ s2.data with hrec | heq
          · left
            rw [hrec]
            rfl
          · rw [heq]
            cases hv : get_clevis_config_from_jwe f s2.data with
            | error e => right; trivial
            | ok copt =>
              simp only [except_bind_ok]
              cases copt with
              | none => right; trivial
              | some c =>
                simp only [except_pure, except_bind_ok]
                cases hpv : pyGetItem c "pin" with
                | error e => right; trivial
                | ok pv =>
                  simp only [except_bind_ok]
                  cases hk : jsonDictKey pv with
                  | error e => right; trivial
                  | ok k =>
                    simp only [except_bind_ok]
                    cases hpay : pyGetItem c k with
                    | error e => right; trivial
                    | ok v =>
                      simp only [except_bind_ok]
                      rcases ihS rest
                        (match alistLookup acc k with
                         | none => acc ++ [(k, [v])]
                         | some l => alistSet acc k (l ++ [v])) with hrec2 | heq2
                      · exact Or.inl hrec2
                      · exact Or.inr heq2
        | null => right; trivial
        | bool b => right; trivial
        | num n => right; trivial
        | arr l2 => right; trivial
        | obj fl => right; trivial
    have hJ : ∀ x : List Char,
        get_clevis_config_from_jwe (f + 1) x = .error .recursionError ∨
        get_clevis_config_from_jwe (f + 2) x =
          get_clevis_config_from_jwe (f + 1) x := by
      intro x
      rcases ihH (headSegment x) with hrec | heq
      · left
        simp only [get_clevis_config_from_jwe]
        exact hrec
      · right
        simp only [get_clevis_config_from_jwe]
        exact heq
    exact ⟨hH, hS, hJ⟩

/-- Any larger fuel preserves a successful JWE decode. -/
theorem decode_jwe_fuel_le (f f' : Nat) (hle : f ≤ f') (x : List Char)
    (r : Option Json) (h : get_clevis_config_from_jwe f x = .ok r) :
    get_clevis_config_from_jwe f' x = .ok r := by
  obtain ⟨k, rfl⟩ := Nat.exists_eq_add_of_le hle
  clear hle
  induction k with
  | zero => exact h
  | succ n ihn =>
    rcases (decode_fuel_step (f + n)).2.2 x with hrec | heq
    · rw [ihn] at hrec
      exact absurd hrec (by simp)
    · rw [show f + (n + 1) = (f + n) + 1 from by omega, heq]
      exact ihn

/-- The general behaviour of the sss child loop: for every list of child
JWE strings that decode to configs with arbitrary pin names and payloads,
the loop succeeds and returns exactly the grouped accumulation of the
`(pin name, payload)` pairs in input order. -/
theorem sss_subpins_spec :
    ∀ (jwes : List String) (children : List (String × Json)) (fuel : Nat)
      (acc : List (String × List Json)),
    ChildrenDecode fuel jwes children →
    sss_subpins (fuel + jwes.length + 1) (jwes.map Json.str) acc =
      .ok (groupPins acc children) := by
  intro jwes
  induction jwes with
  | nil =>
    intro children fuel acc hkids
    cases children with
    | nil =>
      simp only [List.map_nil, List.length_nil, Nat.add_zero, sss_subpins,
        groupPins, except_pure]
    | cons kv children' => exact absurd hkids (by simp [ChildrenDecode])
  | cons j jwes' ih =>
    intro children fuel acc hkids
    cases children with
    | nil => exact absurd hkids (by simp [ChildrenDecode])
    | cons kv children' =>
      obtain ⟨⟨c, pv, hdec, hpv, hkey, hpay⟩, hrest⟩ := hkids
      obtain ⟨k, v⟩ := kv
      have hdec' :
          get_clevis_config_from_jwe (fuel + jwes'.length + 1) j.data =
            .ok (some c) :=
        decode_jwe_fuel_le fuel (fuel + jwes'.length + 1) (by omega) j.data
          (some c) hdec
      simp only [List.length_cons, List.map_cons]
      rw [show fuel + (jwes'.length + 1) + 1 = (fuel + jwes'.length + 1) + 1
        from by omega]
      simp only [sss_subpins, except_pure, except_bind_ok, hdec', hpv, hkey,
        hpay, groupPins]
      exact ih children' fuel
        (match alistLookup acc k with
         | none => acc ++ [(k, [v])]
         | some l => alistSet acc k (l ++ [v])) hrest

/-- C3: every decoded header whose `clevis.pin` is `"sss"` is resolved by
recursively decoding the first `.`-segment of each element of
`clevis.sss.jwe` (in input order, any number of children, arbitrary child
pins), grouping the children's payloads under each child's own pin name
(appending in input order, creating the bucket on first occurrence —
`groupPins`), and returning `{pin: "sss", sss: {t: clevis.sss.t,
pins: <grouped map>}}`; moreover the bucket under any pin name holds
exactly the payloads of the children with that pin name, in order. -/
theorem C3_sss_grouping :
    (∀ (fuel : Nat) (h : List Char) (bs : List Nat) (cs : List Char)
        (obj clevis sss t : Json) (jwes : List String)
        (children : List (String × Json)),
        b64_decode h = .ok bs → utf8_decode bs = .ok cs →
        json_loads cs = .ok obj → pyGet obj "clevis" = .ok clevis →
        clevis.truthy = true → pyGet clevis "pin" = .ok (.str "sss") →
        pyGetItem clevis "sss" = .ok sss →
        pyGetItem sss "jwe" = .ok (.arr (jwes.map Json.str)) →
        pyGetItem sss "t" = .ok t →
        ChildrenDecode fuel jwes children →
        get_clevis_config_from_protected_header (fuel + jwes.length + 2) h =
          .ok (some (.obj [("pin", .str "sss"),
            ("sss", .obj [("t", t),
              ("pins", .obj ((groupPins [] children).map
                (fun kv => (kv.1, Json.arr kv.2))))])]))) ∧
    (∀ (children : List (String × Json)) (k : String),
        alistLookup (groupPins [] children) k =
          match (children.filter (fun kv => kv.1 = k)).map Prod.snd with
          | [] => none
          | l => some l) := by
  constructor
  · intro fuel h bs cs obj clevis sss t jwes children hb hu hj hc htr hpin
      hsss hjwe ht hkids
    rw [show fuel + jwes.length + 2 = (fuel + jwes.length + 1) + 1 from by
      omega]
    simp only [get_clevis_config_from_protected_header, hb, except_bind_ok,
      except_pure, hu, hj, hc, htr, hpin, Json.eqStr,
      (show ("sss" : String) ≠ "tang" by decide), decide_False,
      Bool.false_eq_true, if_false, eq_self_iff_true, decide_True, if_true,
      hsss, hjwe, ht]
    rw [sss_subpins_spec jwes children fuel [] hkids]
    simp only [except_bind_ok, except_pure]
  · intro children k
    rw [groupPins_lookup k children []]
    cases hx : (children.filter (fun kv => kv.1 = k)).map Prod.snd <;>
      simp [alistLookup]

set_option maxRecDepth 400000 in
set_option maxHeartbeats 4000000 in
/-- C3, witness: the general theorem applied to a concrete sss header
with two tang children (threshold 2, one bucket preserving order) and to
a concrete sss header with one tang child and one `tpm2` child
(threshold 1, two buckets keyed by each child's own pin). -/
theorem C3_sss_grouping_witness :
    get_clevis_config_from_protected_header 24 sssProtected =
      .ok (some (.obj [("pin", .str "sss"),
        ("sss", .obj [("t", .num 2),
          ("pins", .obj [("tang", .arr [.obj [("url", .str "http://x")],
                                        .obj [("url", .str "http://y")]])])])])) ∧
    get_clevis_config_from_protected_header 24 sssMixedProtected =
      .ok (some (.obj [("pin", .str "sss"),
        ("sss", .obj [("t", .num 1),
          ("pins", .obj [("tang", .arr [.obj [("url", .str "http://x")]]),
                         ("tpm2", .arr [.obj []])])])])) :=
  ⟨C3_sss_grouping.1 20 sssProtected _ _ _ _ _ _
      [String.mk (tangProtected ++ ['.', 'x']),
       String.mk (tangProtectedB ++ ['.', 'y'])]
      [("tang", .obj [("url", .str "http://x")]),
       ("tang", .obj [("url", .str "http://y")])]
      rfl rfl rfl rfl rfl rfl rfl rfl rfl
      ⟨⟨_, _, rfl, rfl, rfl, rfl⟩, ⟨_, _, rfl, rfl, rfl, rfl⟩, trivial⟩,
   C3_sss_grouping.1 20 sssMixedProtected _ _ _ _ _ _
      [String.mk (tangProtected ++ ['.', 'z']),
       String.mk (tpm2Protected ++ ['.', 'w'])]
      [("tang", .obj [("url", .str "http://x")]), ("tpm2", .obj [])]
      rfl rfl rfl rfl rfl rfl rfl rfl rfl
      ⟨⟨_, _, rfl, rfl, rfl, rfl⟩, ⟨_, _, rfl, rfl, rfl, rfl⟩, trivial⟩⟩

/-- `takeWhile` walks through a prefix wholly satisfying the
predicate. -/
theorem takeWhile_append_all {α : Type} (p : α → Bool) (l1 l2 : List α)
    (h : ∀ a ∈ l1, p a = true) :
    (l1 ++ l2).takeWhile p = l1 ++ l2.takeWhile p := by
  induction l1 with
  | nil => simp
  | cons a l ih =>
    simp only [List.cons_append, List.takeWhile_cons,
      h a (List.mem_cons_self a l), if_true]
    rw [ih (fun b hb => h b (List.mem_cons_of_mem _ hb))]

/-- `takeWhile (· ≠ '=')` of a run of padding characters is empty. -/
theorem takeWhile_pad_eq (k : Nat) :
    (List.replicate k '=').takeWhile (fun c => decide (c ≠ '=')) = [] := by
  cases k with
  | zero => simp
  | succ n => simp [List.replicate_succ, List.takeWhile_cons]

/-- The keep-filter of `a2b_base64` retains a run of padding
characters. -/
theorem filter_pad_eq (k : Nat) :
    (List.replicate k '=').filter
      (fun c => (b64Index c).isSome || decide (c = '=')) =
      List.replicate k '=' := by
  apply List.filter_eq_self.mpr
  intro a ha
  rw [List.eq_of_mem_replicate ha]
  simp

/-- C7: `b64_decode` pads with `=` to a multiple of four characters,
computing the padding length as `(4 - len % 4) % 4`; on every string of
base64url alphabet characters whose length is not 1 mod 4 this equals
decoding the manually padded string, and decoding succeeds. -/
theorem C7_padding_round_trip (s : List Char)
    (hall : ∀ c ∈ s, (b64Index c).isSome = true)
    (hlen : s.length % 4 ≠ 1) :
    (b64_decode s = urlsafe_b64decode (s ++
      (if s.length % 4 = 2 then ['=', '=']
       else if s.length % 4 = 3 then ['='] else []))) ∧
    ∃ bs, b64_decode s = .ok bs := by
  have hne : ∀ c ∈ s, (c = '=') = False := by
    intro c hc
    simp only [eq_iff_iff, iff_false]
    intro he
    have hx := hall c hc
    rw [he] at hx
    simp [b64Index] at hx
  constructor
  · have h4 : s.length % 4 = 0 ∨ s.length % 4 = 2 ∨ s.length % 4 = 3 := by
      omega
    unfold b64_decode
    rcases h4 with h4 | h4 | h4 <;> rw [h4] <;> simp
  · have hkeep : ∀ c ∈ s, ((b64Index c).isSome || decide (c = '=')) = true := by
      intro c hc
      simp [hall c hc]
    have hlen0 :
        (s ++ List.replicate ((4 - s.length % 4) % 4) '=').length % 4 = 0 := by
      simp only [List.length_append, List.length_replicate]
      omega
    simp only [b64_decode, urlsafe_b64decode, a2b_base64, List.filter_append,
      List.filter_eq_self.mpr hkeep, filter_pad_eq]
    rw [if_neg (fun hcon => hcon hlen0)]
    rw [takeWhile_append_all _ _ _ (fun c hc => by simp [hne c hc]),
      takeWhile_pad_eq, List.append_nil]
    rw [if_neg hlen]
    exact ⟨_, rfl⟩

set_option maxRecDepth 100000 in
set_option maxHeartbeats 1000000 in
/-- C7, witness: the concrete unpadded string `"eyJhIjogMX0"` (length 11,
so one `=` of manual padding). -/
theorem C7_padding_round_trip_witness :
    (b64_decode "eyJhIjogMX0".data = urlsafe_b64decode ("eyJhIjogMX0".data ++
      (if "eyJhIjogMX0".data.length % 4 = 2 then ['=', '=']
       else if "eyJhIjogMX0".data.length % 4 = 3 then ['='] else []))) ∧
    ∃ bs, b64_decode "eyJhIjogMX0".data = .ok bs :=
  C7_padding_round_trip "eyJhIjogMX0".data (by decide) (by decide)

set_option maxRecDepth 100000 in
set_option maxHeartbeats 1000000 in
/-- C6, witness: with no events the monitor emits exactly the primed
state. -/
theorem C6_monitor_emissions_witness :
    ([stateV2Plain].head? = some stateV2Plain) ∧
    (([] : List MonitorEvent) = [] → [stateV2Plain] = [stateV2Plain]) ∧
    List.Chain' (fun a b => a ≠ b) [stateV2Plain] ∧
    (∀ (ev : MonitorEvent) (evs : List MonitorEvent) (old : DeviceState),
        bytesContains ev.line [47] = false →
        monitor_loop [47] (ev :: evs) old = monitor_loop [47] evs old) ∧
    (∀ (ev : MonitorEvent) (evs : List MonitorEvent) (old : DeviceState),
        bytesContains ev.line [47] = true → info ev.env = .ok old →
        monitor_loop [47] (ev :: evs) old = monitor_loop [47] evs old) :=
  C6_monitor_emissions [47] envV2Plain [] stateV2Plain [stateV2Plain] rfl rfl

end LuksHack
